import Mathlib

/-!
Verification development for the guitar practice routine processor
(`src/routine_processor.py`).  The Python module is shallowly embedded:
pure string functions become Lean functions over `String`, and the
JSON-file store becomes explicit state passing over an abstract file
content type.  The Python standard library JSON layer (`json.load` /
`json.dump`) is not code of this repository; it is modelled by its
documented contract at the level of parsed values: `dump` writes a valid
encoding of the given list and `load` parses it back to an equal value,
while unparsable file text is a distinguished state.
-/

/-- Character-list test that `needle` occurs at the start of `hay`. -/
def startsWithChars : List Char → List Char → Bool
  | [], _ => true
  | _ :: _, [] => false
  | a :: as, b :: bs => a == b && startsWithChars as bs

/-- Character-list substring test: does `needle` occur contiguously anywhere in `hay`?
Models the Python expression `needle in hay` on strings. -/
def containsChars (needle : List Char) : List Char → Bool
  | [] => startsWithChars needle []
  | c :: rest => startsWithChars needle (c :: rest) || containsChars needle rest

/-- Python `needle in hay` for strings (contiguous substring containment). -/
def pyIn (needle hay : String) : Bool :=
  containsChars needle.data hay.data

/-- Python `str.lower()`, modelled by per-character ASCII lowercasing; every
keyword the program compares against is lowercase ASCII, so this covers the
case folding the code exercises. -/
def pyLower (s : String) : String :=
  String.mk (s.data.map Char.toLower)

/-- One persisted practice-routine record, mirroring the dict literals
built at `routine_processor.py` lines 42-47 and 144-149 with keys
text, category, tags, state. -/
structure Routine where
  text : String
  category : String
  tags : List String
  state : String
deriving DecidableEq

/-- Model of `self.valid_categories` from `routine_processor.py` line 18. -/
def valid_categories : List String :=
  ["daily", "one_day", "two_three_days", "one_week"]

/-- Model of `self.valid_states` from `routine_processor.py` line 19. -/
def valid_states : List String :=
  ["not_completed", "completed", "in_progress"]

/-- Model of `RoutineProcessor.categorize_text` (`routine_processor.py` lines 166-178):
lowercase the text, then cascade of `any(word in text_lower for word in ...)`
tests with first match winning and fallback `"one_day"`. -/
def categorize_text (text : String) : String :=
  let text_lower := pyLower text
  if ["daily", "everyday", "routine"].any (fun word => pyIn word text_lower) then
    "daily"
  else if ["week", "weekly"].any (fun word => pyIn word text_lower) then
    "one_week"
  else if ["couple", "few", "two", "three"].any (fun word => pyIn word text_lower) then
    "two_three_days"
  else
    "one_day"

/-- The `tag_keywords` dict of `RoutineProcessor.extract_tags`
(`routine_processor.py` lines 186-195), in insertion order, which is the
iteration order of a Python dict literal. -/
def tag_keywords : List (String × List String) :=
  [("scales", ["scale", "scales", "major", "minor", "pentatonic"]),
   ("chords", ["chord", "chords", "progression"]),
   ("technique", ["technique", "picking", "fingering", "fretting"]),
   ("ear training", ["ear", "listening", "hearing"]),
   ("theory", ["theory", "harmony", "interval"]),
   ("improv", ["improv", "improvise", "improvisation", "jam"]),
   ("rhythm", ["rhythm", "timing", "metronome"]),
   ("practice", ["practice", "exercise", "drill"])]

/-- Model of `RoutineProcessor.extract_tags` (`routine_processor.py` lines 180-201):
for each tag group in table order, append the label when any keyword is a
substring of the lowercased text; `return tags if tags else ['general']`. -/
def extract_tags (text : String) : List String :=
  let text_lower := pyLower text
  let tags := tag_keywords.foldl
    (fun acc group =>
      if group.2.any (fun keyword => pyIn keyword text_lower) then acc ++ [group.1]
      else acc) []
  if tags = [] then ["general"] else tags

/-- The labels of the tag groups whose keyword lists match the text, in
table order: the closed form of the loop body of `extract_tags`. -/
def matchedTagLabels (text : String) : List String :=
  (tag_keywords.filter
    (fun group => group.2.any (fun keyword => pyIn keyword (pyLower text)))).map Prod.fst

/-- Abstract content of the JSON store file: absent, present but not valid
JSON (the raw text kept for reference), or a valid JSON encoding of a list
of routine records.  The tool only ever writes routine lists, and the
standard-library JSON round trip is modelled at this parsed-value level. -/
inductive FileContent where
  | missing : FileContent
  | invalid (raw : String) : FileContent
  | valid (routines : List Routine) : FileContent
deriving DecidableEq

/-- Outcome of one `load_routines` call: the returned list, whether the
invalid-JSON warning was printed, and the file content afterwards (the
function only opens the file for reading). -/
structure LoadResult where
  routines : List Routine
  warned : Bool
  fileAfter : FileContent
deriving DecidableEq

/-- Model of `RoutineProcessor.load_routines` (`routine_processor.py` lines 21-30):
missing file yields `[]`; a file whose text raises `json.JSONDecodeError`
yields `[]` with a printed warning; otherwise the parsed list is returned.
The Lean function is total: no branch raises. -/
def load_routines : FileContent → LoadResult
  | .missing => ⟨[], false, .missing⟩
  | .invalid raw => ⟨[], true, .invalid raw⟩
  | .valid routines => ⟨routines, false, .valid routines⟩

/-- Model of `RoutineProcessor.save_routines` (`routine_processor.py` lines 32-36):
opens the file for writing and dumps the full list, overwriting whatever
was there; the previous content is discarded regardless of its state. -/
def save_routines (routines : List Routine) (_fc : FileContent) : FileContent :=
  .valid routines

/-- Model of `RoutineProcessor.add_routine` (`routine_processor.py` lines 38-51):
load, append the new record dict, save. -/
def add_routine (text category : String) (tags : List String) (state : String)
    (fc : FileContent) : FileContent :=
  let routines := (load_routines fc).routines
  save_routines (routines ++ [⟨text, category, tags, state⟩]) fc

/-- The routine dict built for one surviving OCR line
(`routine_processor.py` lines 144-149). -/
def line_to_routine (line : String) : Routine :=
  ⟨line, categorize_text line, extract_tags line, "not_completed"⟩

/-- The `for line in lines` loop of `process_image`
(`routine_processor.py` lines 138-153): lines longer than 10 characters
are appended to the accumulated list and counted. -/
def imageLoop : List String → List Routine → Nat → List Routine × Nat
  | [], routines, count => (routines, count)
  | line :: rest, routines, count =>
    if line.length > 10 then
      imageLoop rest (routines ++ [line_to_routine line]) (count + 1)
    else
      imageLoop rest routines count

/-- Observable outcome of `process_image` after OCR: final file content,
the `added_count` value, whether `save_routines` was called, and whether
the "No meaningful text found" message was printed. -/
structure ImageResult where
  fileAfter : FileContent
  addedCount : Nat
  savedCalled : Bool
  noMeaningfulMsg : Bool
deriving DecidableEq

/-- Model of `RoutineProcessor.process_image` from the point where the OCR text has
been split into stripped non-blank lines (`routine_processor.py` lines
135-159): load once, run the loop, then save exactly when
`added_count > 0`, else print "No meaningful text found in image.".
OCR itself is an opaque external capability and is not modelled. -/
def process_image_lines (lines : List String) (fc : FileContent) : ImageResult :=
  let routines := (load_routines fc).routines
  let result := imageLoop lines routines 0
  if result.2 > 0 then
    ⟨save_routines result.1 fc, result.2, true, false⟩
  else
    ⟨fc, result.2, false, true⟩

/-- The four interactive prompts of `manual_entry`, in the order the code
issues them inside one loop iteration. -/
inductive Prompt where
  | text : Prompt
  | category : Prompt
  | tags : Prompt
  | state : Prompt
deriving DecidableEq

/-- Python `str.strip()`: drop leading and trailing whitespace characters.
Covers the ASCII whitespace the interactive inputs exercise. -/
def pyStrip (s : String) : String :=
  String.mk (((s.data.dropWhile Char.isWhitespace).reverse.dropWhile Char.isWhitespace).reverse)

/-- The quit-sentinel test `x.lower() in ['q', 'quit']` applied to already
stripped input (`routine_processor.py` lines 63, 72, 80, 87). -/
def isQuit (s : String) : Bool :=
  pyLower s == "q" || pyLower s == "quit"

/-- Python `str.split(',')` as a character-list scan: cut at every comma,
keeping empty pieces, so `"".split(',') == ['']`. -/
def splitCommaAux : List Char → List Char → List (List Char)
  | [], acc => [acc.reverse]
  | c :: rest, acc =>
    if c = ',' then acc.reverse :: splitCommaAux rest []
    else splitCommaAux rest (c :: acc)

/-- Python `s.split(',')` on strings. -/
def pySplitComma (s : String) : List String :=
  (splitCommaAux s.data []).map String.mk

/-- The tags parse of `manual_entry` (`routine_processor.py` line 82):
`[tag.strip() for tag in tags_input.split(',') if tag.strip()]`. -/
def parseTags (s : String) : List String :=
  ((pySplitComma s).map pyStrip).filter (fun t => t ≠ "")

/-- The prompt the `manual_entry` loop is blocked on: the `while True`
body of `routine_processor.py` lines 60-96 walks text, category, tags,
state; every `continue` returns to the top of the loop, i.e. to the text
prompt; a pending text/category/tags value is carried along. -/
inductive Phase where
  | text : Phase
  | category (text : String) : Phase
  | tags (text category : String) : Phase
  | state (text category : String) (tags : List String) : Phase
deriving DecidableEq

/-- One blocking `input()` of `RoutineProcessor.manual_entry`
(`routine_processor.py` lines 53-102) per recursive step: consume the next
scripted input at the current phase, mirroring the loop body exactly.
Quit sentinels end the session; `continue` paths return to `Phase.text`
discarding the pending values, as the Python `continue` re-enters the loop
at its top.  An exhausted script models end of input, which ends the
session without further writes. -/
def manualLoop : List String → Phase → FileContent → List Prompt × FileContent
  | [], _, fc => ([], fc)
  | i :: rest, Phase.text, fc =>
    let text := pyStrip i
    if isQuit text then ([Prompt.text], fc)
    else if text = "" then
      let r := manualLoop rest Phase.text fc
      (Prompt.text :: r.1, r.2)
    else
      let r := manualLoop rest (Phase.category text) fc
      (Prompt.text :: r.1, r.2)
  | i :: rest, Phase.category text, fc =>
    let category := pyStrip i
    if isQuit category then ([Prompt.category], fc)
    else if valid_categories.contains category = false then
      let r := manualLoop rest Phase.text fc
      (Prompt.category :: r.1, r.2)
    else
      let r := manualLoop rest (Phase.tags text category) fc
      (Prompt.category :: r.1, r.2)
  | i :: rest, Phase.tags text category, fc =>
    let tagsInput := pyStrip i
    if isQuit tagsInput then ([Prompt.tags], fc)
    else
      let r := manualLoop rest (Phase.state text category (parseTags tagsInput)) fc
      (Prompt.tags :: r.1, r.2)
  | i :: rest, Phase.state text category tags, fc =>
    let state := pyStrip i
    if isQuit state then ([Prompt.state], fc)
    else if state = "" then
      let r := manualLoop rest Phase.text (add_routine text category tags "not_completed" fc)
      (Prompt.state :: r.1, r.2)
    else if valid_states.contains state = false then
      let r := manualLoop rest Phase.text fc
      (Prompt.state :: r.1, r.2)
    else
      let r := manualLoop rest Phase.text (add_routine text category tags state fc)
      (Prompt.state :: r.1, r.2)

/-- Model of `RoutineProcessor.manual_entry` run against a scripted sequence of
input lines, starting at the text prompt with the given store content.
Returns the trace of prompts that consumed an input and the final file
content. -/
def manual_entry (inputs : List String) (fc : FileContent) : List Prompt × FileContent :=
  manualLoop inputs Phase.text fc

/-- The first keyword-group test of `categorize_text` (line 171). -/
def catGroup1 (s : String) : Bool :=
  ["daily", "everyday", "routine"].any (fun word => pyIn word (pyLower s))

/-- The second keyword-group test of `categorize_text` (line 173). -/
def catGroup2 (s : String) : Bool :=
  ["week", "weekly"].any (fun word => pyIn word (pyLower s))

/-- The third keyword-group test of `categorize_text` (line 175). -/
def catGroup3 (s : String) : Bool :=
  ["couple", "few", "two", "three"].any (fun word => pyIn word (pyLower s))

/-- The routines the image driver derives from the surviving lines: the
closed form of what `imageLoop` appends. -/
def image_new_routines (lines : List String) : List Routine :=
  (lines.filter (fun line => decide (line.length > 10))).map line_to_routine

theorem categorize_text_eq (s : String) :
    categorize_text s
      = if catGroup1 s then "daily"
        else if catGroup2 s then "one_week"
        else if catGroup3 s then "two_three_days"
        else "one_day" := rfl

theorem foldl_filter_map (p : String × List String → Bool)
    (l : List (String × List String)) :
    ∀ acc : List String,
      l.foldl (fun a q => if p q then a ++ [q.1] else a) acc
        = acc ++ (l.filter p).map Prod.fst := by
  induction l with
  | nil => intro acc; simp
  | cons q rest ih =>
    intro acc
    by_cases h : p q
    · simp [List.foldl_cons, List.filter_cons, h, ih]
    · simp [List.foldl_cons, List.filter_cons, h, ih]

theorem extract_tags_eq (s : String) :
    extract_tags s
      = if matchedTagLabels s = [] then ["general"] else matchedTagLabels s := by
  show (let tags := tag_keywords.foldl _ []; if tags = [] then ["general"] else tags) = _
  rw [foldl_filter_map]
  rfl

theorem nodup_tag_labels : (tag_keywords.map Prod.fst).Nodup := by decide

theorem mem_matchedTagLabels (s : String) (group : String × List String)
    (hg : group ∈ tag_keywords) :
    group.1 ∈ matchedTagLabels s
      ↔ group.2.any (fun keyword => pyIn keyword (pyLower s)) = true := by
  unfold matchedTagLabels
  constructor
  · intro h
    obtain ⟨q, hq, hq1⟩ := List.mem_map.mp h
    have hqf := List.mem_filter.mp hq
    have hqg : q = group := List.inj_on_of_nodup_map nodup_tag_labels hqf.1 hg hq1
    rw [← hqg]
    exact hqf.2
  · intro h
    exact List.mem_map.mpr ⟨group, List.mem_filter.mpr ⟨hg, h⟩, rfl⟩

theorem extract_tags_ne_nil (s : String) : extract_tags s ≠ [] := by
  rw [extract_tags_eq]
  by_cases hm : matchedTagLabels s = []
  · simp [hm]
  · simp [hm]

theorem imageLoop_eq (lines : List String) :
    ∀ (acc : List Routine) (n : Nat),
      imageLoop lines acc n
        = (acc ++ image_new_routines lines, n + (image_new_routines lines).length) := by
  induction lines with
  | nil => intro acc n; simp [imageLoop, image_new_routines]
  | cons line rest ih =>
    intro acc n
    by_cases h : line.length > 10
    · simp only [imageLoop, h, if_true, ih, image_new_routines, List.filter_cons,
        decide_eq_true_eq, List.map_cons, List.append_assoc, List.singleton_append,
        List.length_cons]
      rw [Prod.mk.injEq]
      exact ⟨rfl, by omega⟩
    · simp only [imageLoop, h, if_false, ih, image_new_routines, List.filter_cons,
        decide_eq_true_eq]

/-- C1: for every input string, `categorize_text` returns exactly one value of
the 4-element enumeration, decided by case-insensitive substring match against
the ordered keyword groups with first match winning: "daily" when the lowercased
text contains any of daily/everyday/routine; otherwise "one_week" for
week/weekly; otherwise "two_three_days" for couple/few/two/three; otherwise
"one_day". -/
theorem categorize_text_enumeration_cascade (s : String) :
    categorize_text s ∈ ["daily", "one_day", "two_three_days", "one_week"] ∧
    (categorize_text s = "daily" ↔ catGroup1 s = true) ∧
    (categorize_text s = "one_week" ↔ (catGroup1 s = false ∧ catGroup2 s = true)) ∧
    (categorize_text s = "two_three_days"
      ↔ (catGroup1 s = false ∧ catGroup2 s = false ∧ catGroup3 s = true)) ∧
    (categorize_text s = "one_day"
      ↔ (catGroup1 s = false ∧ catGroup2 s = false ∧ catGroup3 s = false)) := by
  cases h1 : catGroup1 s <;> cases h2 : catGroup2 s <;> cases h3 : catGroup3 s <;>
    simp [categorize_text_eq, h1, h2, h3]

/-- C2: `extract_tags` evaluates the 8 fixed tag groups independently: a
group's label is included exactly when some keyword of that group is a
case-insensitive substring of the text; the result is never empty, and equals
exactly `["general"]` when no group matches. -/
theorem extract_tags_independent_groups (s : String) :
    extract_tags s ≠ [] ∧
    extract_tags s
      = (if matchedTagLabels s = [] then ["general"] else matchedTagLabels s) ∧
    ∀ group ∈ tag_keywords,
      (group.1 ∈ extract_tags s
        ↔ group.2.any (fun keyword => pyIn keyword (pyLower s)) = true) := by
  refine ⟨extract_tags_ne_nil s, extract_tags_eq s, ?_⟩
  intro group hg
  rw [extract_tags_eq]
  by_cases hm : matchedTagLabels s = []
  · simp only [hm, if_true, reduceIte]
    constructor
    · intro hmem
      have : group.1 = "general" := by simpa using hmem
      have hall : ∀ g ∈ tag_keywords, g.1 ≠ "general" := by decide
      have hne : group.1 ≠ "general" := hall group hg
      exact absurd this hne
    · intro hmatch
      exfalso
      have : group.1 ∈ matchedTagLabels s := (mem_matchedTagLabels s group hg).mpr hmatch
      rw [hm] at this
      exact absurd this (List.not_mem_nil _)
  · simp only [hm, if_false, reduceIte]
    exact mem_matchedTagLabels s group hg

/-- C10: the list returned by `extract_tags` contains each tag label at most
once and lists the matched labels in the fixed table order scales, chords,
technique, ear training, theory, improv, rhythm, practice (or is the fallback
`["general"]`). -/
theorem extract_tags_nodup_table_order (s : String) :
    (extract_tags s).Nodup ∧
    (extract_tags s = ["general"] ∨
      (extract_tags s).Sublist
        ["scales", "chords", "technique", "ear training", "theory", "improv",
         "rhythm", "practice"]) := by
  have hsub : (matchedTagLabels s).Sublist (tag_keywords.map Prod.fst) :=
    List.Sublist.map Prod.fst (List.filter_sublist tag_keywords)
  have hlabels : tag_keywords.map Prod.fst
      = ["scales", "chords", "technique", "ear training", "theory", "improv",
         "rhythm", "practice"] := by decide
  rw [extract_tags_eq]
  by_cases hm : matchedTagLabels s = []
  · simp [hm]
  · simp only [hm, if_false, reduceIte]
    refine ⟨List.Nodup.sublist hsub nodup_tag_labels, Or.inr ?_⟩
    rw [← hlabels]
    exact hsub

/-- Witness for C2 at the concrete text "daily scales" and the scales group. -/
theorem extract_tags_independent_groups_witness :
    extract_tags "daily scales" ≠ [] ∧
    ("scales" ∈ extract_tags "daily scales"
      ↔ (["scale", "scales", "major", "minor", "pentatonic"].any
          (fun keyword => pyIn keyword (pyLower "daily scales"))) = true) := by
  have h := extract_tags_independent_groups "daily scales"
  exact ⟨h.1, h.2.2 ("scales", ["scale", "scales", "major", "minor", "pentatonic"])
    (by decide)⟩

/-- C3: saving a sequence of routines and then loading from the same file
yields a sequence equal in content and order to the original (and no
warning is emitted on that load). -/
theorem save_then_load_round_trip (routines : List Routine) (fc : FileContent) :
    (load_routines (save_routines routines fc)).routines = routines ∧
    (load_routines (save_routines routines fc)).warned = false :=
  ⟨rfl, rfl⟩

/-- C4: `load_routines` is total (no branch raises): a missing file yields
the empty sequence; an existing file whose content is not valid JSON yields
a warning and the empty sequence, and the file itself is left untouched. -/
theorem load_routines_missing_and_corrupt (fc : FileContent) :
    (load_routines fc).fileAfter = fc ∧
    (fc = FileContent.missing → (load_routines fc).routines = []) ∧
    (∀ raw, fc = FileContent.invalid raw →
      (load_routines fc).routines = [] ∧ (load_routines fc).warned = true) := by
  cases fc <;> simp [load_routines]

/-- Witness for C4 at the spec's concrete corrupt content "not valid json\x7b". -/
theorem load_routines_missing_and_corrupt_witness :
    (load_routines (FileContent.invalid "not valid json\x7b")).fileAfter
      = FileContent.invalid "not valid json\x7b" ∧
    (load_routines (FileContent.invalid "not valid json\x7b")).routines = [] ∧
    (load_routines (FileContent.invalid "not valid json\x7b")).warned = true := by
  have h := load_routines_missing_and_corrupt (FileContent.invalid "not valid json\x7b")
  exact ⟨h.1, (h.2.2 _ rfl).1, (h.2.2 _ rfl).2⟩

/-- C5: `add_routine` is load, push-back, save: the store afterwards holds
exactly the loaded prior sequence with the new record appended at the end,
and every previously stored record keeps its value and position. -/
theorem add_routine_appends_preserving (fc : FileContent) (text category : String)
    (tags : List String) (state : String) :
    add_routine text category tags state fc
      = FileContent.valid
          ((load_routines fc).routines ++ [⟨text, category, tags, state⟩]) ∧
    ∀ i, i < (load_routines fc).routines.length →
      ((load_routines fc).routines ++ [(⟨text, category, tags, state⟩ : Routine)])[i]?
        = (load_routines fc).routines[i]? := by
  refine ⟨rfl, ?_⟩
  intro i hi
  exact List.getElem?_append_left hi

/-- Witness for C5: appending to a one-element store keeps position 0. -/
theorem add_routine_appends_preserving_witness :
    add_routine "b" "one_day" [] "not_completed"
        (FileContent.valid [⟨"a", "daily", ["x"], "completed"⟩])
      = FileContent.valid
          ((load_routines (FileContent.valid [⟨"a", "daily", ["x"], "completed"⟩])).routines
            ++ [⟨"b", "one_day", [], "not_completed"⟩]) ∧
    ((load_routines (FileContent.valid [⟨"a", "daily", ["x"], "completed"⟩])).routines
        ++ [(⟨"b", "one_day", [], "not_completed"⟩ : Routine)])[0]?
      = (load_routines (FileContent.valid [⟨"a", "daily", ["x"], "completed"⟩])).routines[0]? := by
  have h := add_routine_appends_preserving
    (FileContent.valid [⟨"a", "daily", ["x"], "completed"⟩]) "b" "one_day" [] "not_completed"
  exact ⟨h.1, h.2 0 (by decide)⟩

/-- C6: in the image driver, exactly the trimmed non-blank lines longer than
10 characters become routines (a 10-character line is excluded by the strict
comparison), each with text the line itself, category `categorize_text line`,
tags `extract_tags line`, and state "not_completed". -/
theorem process_image_length_filter (lines : List String) (fc : FileContent) :
    (imageLoop lines (load_routines fc).routines 0).1
      = (load_routines fc).routines
        ++ (lines.filter (fun line => decide (line.length > 10))).map line_to_routine ∧
    ∀ line, line_to_routine line
      = ⟨line, categorize_text line, extract_tags line, "not_completed"⟩ := by
  constructor
  · rw [imageLoop_eq]
    rfl
  · intro line
    rfl

/-- C9: the image driver loads once before its loop and performs at most one
save: the save happens exactly when at least one routine was produced; when no
line survives the filter, the "no meaningful text found" message is reported
and the store file is unchanged. -/
theorem process_image_single_save (lines : List String) (fc : FileContent) :
    ((process_image_lines lines fc).savedCalled = true
      ↔ (process_image_lines lines fc).addedCount > 0) ∧
    (process_image_lines lines fc).addedCount = (image_new_routines lines).length ∧
    ((process_image_lines lines fc).addedCount = 0 →
      (process_image_lines lines fc).fileAfter = fc ∧
      (process_image_lines lines fc).noMeaningfulMsg = true) ∧
    ((process_image_lines lines fc).addedCount > 0 →
      (process_image_lines lines fc).fileAfter
        = FileContent.valid ((load_routines fc).routines ++ image_new_routines lines) ∧
      (process_image_lines lines fc).noMeaningfulMsg = false) := by
  simp only [process_image_lines, imageLoop_eq]
  by_cases h : (image_new_routines lines).length > 0
  · simp [h, save_routines]
    exact List.ne_nil_of_length_pos h
  · have h0 : (image_new_routines lines).length = 0 := Nat.eq_zero_of_not_pos h
    simp [h0]

/-- Witness for C9: with only the short line "ok" nothing is saved and the
store is untouched; with one long line the batch is saved. -/
theorem process_image_single_save_witness :
    (process_image_lines ["ok"] FileContent.missing).fileAfter = FileContent.missing ∧
    (process_image_lines ["ok"] FileContent.missing).noMeaningfulMsg = true ∧
    (process_image_lines ["Practice scales daily for 10 minutes"] FileContent.missing).fileAfter
      = FileContent.valid
          ((load_routines FileContent.missing).routines
            ++ image_new_routines ["Practice scales daily for 10 minutes"]) := by
  have hshort := process_image_single_save ["ok"] FileContent.missing
  have hlong := process_image_single_save ["Practice scales daily for 10 minutes"]
    FileContent.missing
  refine ⟨(hshort.2.2.1 (by decide)).1, (hshort.2.2.1 (by decide)).2,
    (hlong.2.2.2 (by decide)).1⟩

/-- Counterexample to C7 as stated: in manual entry with text
"C major scale arpeggios", category "daily", a blank tags answer, and a blank
state answer, the tool stores a routine whose tags field is the empty list,
so the claimed invariant over every stored routine fails. -/
theorem manual_entry_stores_empty_tags :
    (manual_entry ["C major scale arpeggios", "daily", "", "", "q"] FileContent.missing).2
      = FileContent.valid [⟨"C major scale arpeggios", "daily", [], "not_completed"⟩] ∧
    (⟨"C major scale arpeggios", "daily", [], "not_completed"⟩ : Routine).tags = [] := by
  exact ⟨by decide, rfl⟩

/-- C7 amended: every routine the image driver derives has a non-empty tags
field (absence of keyword matches yields ["general"]); manual entry stores the
user's comma-separated tags verbatim, which can be empty. -/
theorem image_routine_tags_nonempty (lines : List String) (r : Routine)
    (hr : r ∈ image_new_routines lines) : r.tags ≠ [] := by
  obtain ⟨line, _, hline⟩ := List.mem_map.mp hr
  rw [← hline]
  exact extract_tags_ne_nil line

/-- Witness for the amended C7 at a concrete OCR line. -/
theorem image_routine_tags_nonempty_witness :
    (line_to_routine "Practice scales daily").tags ≠ [] := by
  exact image_routine_tags_nonempty ["Practice scales daily"]
    (line_to_routine "Practice scales daily") (by decide)

/-- Counterexample to C8 as stated: on the input script
["my text", "badcat", "daily", "", "", "q"], after the invalid category
"badcat" the driver's next prompt is the text prompt (third trace entry),
not a category re-prompt, and the entered text "my text" is discarded: the
session ends with the store untouched.  Under the claimed behaviour the
retained text "my text" would have been stored with category "daily". -/
theorem manual_entry_restart_counterexample :
    manual_entry ["my text", "badcat", "daily", "", "", "q"] FileContent.missing
      = ([Prompt.text, Prompt.category, Prompt.text, Prompt.category, Prompt.text,
          Prompt.text], FileContent.missing) := by
  decide

/-- C8 amended: when the user enters a category value outside the enumeration,
the driver rejects it and restarts the iteration from the text prompt; the
previously entered text is discarded rather than retained. -/
theorem manual_entry_invalid_category_restarts (t c : String) (rest : List String)
    (fc : FileContent)
    (ht1 : isQuit (pyStrip t) = false) (ht2 : pyStrip t ≠ "")
    (hc1 : isQuit (pyStrip c) = false)
    (hc2 : valid_categories.contains (pyStrip c) = false) :
    manual_entry (t :: c :: rest) fc
      = (Prompt.text :: Prompt.category :: (manual_entry rest fc).1,
         (manual_entry rest fc).2) := by
  simp only [manual_entry, manualLoop, ht1, ht2, hc1, hc2, Bool.false_eq_true,
    if_false, reduceIte]

/-- Witness for the amended C8 at a concrete script. -/
theorem manual_entry_invalid_category_restarts_witness :
    manual_entry ["my text", "someday", "q"] FileContent.missing
      = (Prompt.text :: Prompt.category :: (manual_entry ["q"] FileContent.missing).1,
         (manual_entry ["q"] FileContent.missing).2) := by
  exact manual_entry_invalid_category_restarts "my text" "someday" ["q"]
    FileContent.missing (by decide) (by decide) (by decide) (by decide)
